import Mathlib

/-!
Verification of the ravcheck scan workflow

A shallow embedding of the submission-and-polling slice of
`src/lib/index.js` (class `Ravcheck`), together with the pieces of
`src/lib/config/optionsManager.js` that the claims touch.

Modelling conventions:
* JavaScript numbers that can become `NaN` (the results of `parseInt` on
  non-numeric header values) are modelled as `Option Int`, with `none`
  playing the role of `NaN`; the comparison helpers below reproduce the
  JS semantics that every comparison against `NaN` is false.
* HTTP traffic is modelled by explicit response values handed to the
  embedded functions; the poller receives the status of its k-th result
  request from a function `Nat → PollResp`, the submission client
  consumes a list of responses (one per `fetch`, the recursive 429 retry
  consuming the next element).
* `await this.delay(ms)` is modelled by accumulating the requested
  milliseconds in a `sleepMs` field of the run record.
* Mutation of `this.rateLimitInfo` is modelled by explicit state passing.
  The `daily`/`monthly` fields of `rateLimitInfo` are omitted: no function
  in the modelled slice ever reads or writes them.
-/

namespace Ravcheck

/-- A whitespace character as JS string trimming sees it (the common
cases: space, tab, newline, carriage return). -/
def isJsSpaceChar (c : Char) : Bool :=
  c = ' ' ∨ c = '\t' ∨ c = '\n' ∨ c = '\r'

/-- JS `String.prototype.trim`: strip leading and trailing whitespace. -/
def jsTrim (s : String) : String :=
  ⟨(((s.toList.dropWhile isJsSpaceChar).reverse.dropWhile isJsSpaceChar).reverse)⟩

/-- JS `parseInt` on a header string: skip surrounding whitespace, read an
optional sign and then leading decimal digits; `none` models the `NaN`
returned when no digit is found.  (Hexadecimal `0x` forms are not
modelled; the rate-limit headers are plain decimal.) -/
def jsParseInt (s : String) : Option Int :=
  let t := (jsTrim s).toList
  let signDigits : Int × List Char :=
    match t with
    | '-' :: rest => (-1, rest)
    | '+' :: rest => (1, rest)
    | _ => (1, t)
  let digs := signDigits.2.takeWhile Char.isDigit
  if digs.isEmpty then none
  else
    some (signDigits.1 * (digs.foldl (fun acc c => acc * 10 + (c.toNat - 48)) 0 : Nat))

/-- Auxiliary scan for `strContains`. -/
def charsHaveInfix (pat : List Char) : List Char → Bool
  | [] => pat.isEmpty
  | c :: t => pat.isPrefixOf (c :: t) || charsHaveInfix pat t

/-- JS `String.prototype.includes`: does `s` contain `pat` as a substring? -/
def strContains (s pat : String) : Bool :=
  charsHaveInfix pat.toList s.toList

/-- JS truthiness of a nullable string (header value): `null` and the
empty string are falsy. -/
def jsTruthy : Option String → Bool
  | none => false
  | some v => v ≠ ""

/-- Comparison `a <= b` for a possibly-NaN JS number `a`: false on `NaN`. -/
def jsLe (a : Option Int) (b : Int) : Bool :=
  match a with
  | none => false
  | some x => x ≤ b

/-- The two rate-limit response headers the code reads
(`X-Rate-Limit-Remaining` and `X-Rate-Limit-Reset`); `none` models an
absent header (`headers.get` returning `null`). -/
structure HttpHeaders where
  rlRemaining : Option String
  rlReset : Option String
deriving DecidableEq, Repr

/-- The mutable `this.rateLimitInfo` slice used by the modelled code:
`remaining` requests and the `reset` epoch in milliseconds.  `none`
models `NaN` (a failed `parseInt`). -/
structure RateLimitInfo where
  remaining : Option Int
  reset : Option Int
deriving DecidableEq, Repr

/-- The constructor's initial `rateLimitInfo`:
`remaining = 1`, `reset = Date.now() + 60000` (src/lib/index.js:34-36). -/
def initialRateLimitInfo (startNow : Int) : RateLimitInfo :=
  { remaining := some 1, reset := some (startNow + 60000) }

/-- Models `updateRateLimitFromHeaders(headers)` (src/lib/index.js:761-771):
each field is overwritten with the parsed header value only when the
header is present and truthy; an absent header leaves the field as it
was.  The reset header is in seconds and is scaled by 1000. -/
def updateRateLimitFromHeaders (info : RateLimitInfo) (h : HttpHeaders) : RateLimitInfo :=
  let info1 :=
    if jsTruthy h.rlRemaining then
      { info with remaining := jsParseInt (h.rlRemaining.getD "") }
    else info
  if jsTruthy h.rlReset then
    { info1 with reset := (jsParseInt (h.rlReset.getD "")).map (· * 1000) }
  else info1

/-- Models `waitForRateLimit()` (src/lib/index.js:777-790).  Returns the new
`rateLimitInfo` and the number of milliseconds slept.  The JS condition
`remaining <= 0 && reset > now` is false whenever either number is `NaN`,
which the outer `match` and `jsLe` reproduce.  In the waiting branch the
code sleeps `waitTime + 1000` ms and then resets the state to the
placeholder `remaining = 1`, `reset = now + 60000` (with `now` captured
before the sleep). -/
def waitForRateLimit (info : RateLimitInfo) (now : Int) : RateLimitInfo × Nat :=
  match info.reset with
  | some reset =>
    if jsLe info.remaining 0 ∧ now < reset then
      let waitTime := reset - now
      ({ remaining := some 1, reset := some (now + 60000) }, (waitTime + 1000).toNat)
    else (info, 0)
  | none => (info, 0)

/-- One HTTP response to a submission `fetch`: status, the rate-limit
headers, the body text read on failure (`await response.text()`), and
the `uuid` field of the JSON body on success (`data.uuid`; `none` when
the field is absent). -/
structure SubmitResp where
  status : Nat
  headers : HttpHeaders
  errorText : String
  uuid : Option String
deriving DecidableEq, Repr

/-- The JSON payload POSTed to the scan endpoint
(src/lib/index.js:318-322). -/
structure Payload where
  url : String
  tags : List String
  visibility : String
deriving DecidableEq, Repr

/-- The message of the `Error` thrown for a non-ok submission response
(src/lib/index.js:339-349); the if-chain order (401, 400, 429, 402,
other) is the source's. -/
def submitErrorMessage (status : Nat) (errorText : String) : String :=
  if status = 401 then "🔑 Chave API inválida ou expirada"
  else if status = 400 then "📝 Requisição malformada: " ++ errorText.take 200
  else if status = 429 then "⏱️ Rate limit excedido"
  else if status = 402 then "💰 Quota insuficiente"
  else "🌐 HTTP " ++ toString status ++ ": " ++ errorText.take 200

/-- Result of `submitToUrlScan`: the returned JSON on success, the thrown
`Error` message on failure, or `outOfResponses` when the supplied
response list runs out mid-retry (the model's stand-in for a run that is
still retrying). -/
inductive SubmitOutcome where
  | ok (uuid : Option String)
  | err (message : String)
  | outOfResponses
deriving DecidableEq, Repr

/-- A run of `submitToUrlScan`: its outcome, the final `rateLimitInfo`,
the `rateLimitInfo` recorded right after each response's header update
(one entry per `fetch`, in order), the payload sent by each `fetch`, and
the total milliseconds slept. -/
structure SubmitRun where
  outcome : SubmitOutcome
  finalInfo : RateLimitInfo
  infoTrace : List RateLimitInfo
  payloads : List Payload
  sleepMs : Nat
deriving DecidableEq, Repr

/-- Models `submitToUrlScan(url, tags, visibility, apiKey)`
(src/lib/index.js:305-365).  Each invocation: runs `waitForRateLimit`,
computes `scanVisibility = visibility || optionsManager.getScanVisibility()`,
POSTs the payload, updates the rate-limit state from the response
headers (success or failure), returns the body on an ok (2xx) status and
otherwise throws the classified error; the catch block retries — a
`delay(60000)` then a recursive self-call consuming the next response —
exactly when the thrown message contains the substring
`"Rate limit"`. -/
def submitToUrlScan (url : String) (tags : List String)
    (visibility omVisibility : String) (now : Int) :
    RateLimitInfo → List SubmitResp → SubmitRun
  | info, [] => ⟨.outOfResponses, info, [], [], 0⟩
  | info, r :: rest =>
    let rl := waitForRateLimit info now
    let scanVisibility := if visibility ≠ "" then visibility else omVisibility
    let payload : Payload := ⟨url, tags, scanVisibility⟩
    let info2 := updateRateLimitFromHeaders rl.1 r.headers
    if 200 ≤ r.status ∧ r.status < 300 then
      ⟨.ok r.uuid, info2, [info2], [payload], rl.2⟩
    else
      let msg := submitErrorMessage r.status r.errorText
      if strContains msg "Rate limit" then
        let restRun := submitToUrlScan url tags visibility omVisibility now info2 rest
        ⟨restRun.outcome, restRun.finalInfo, info2 :: restRun.infoTrace,
          payload :: restRun.payloads, rl.2 + 60000 + restRun.sleepMs⟩
      else ⟨.err msg, info2, [info2], [payload], rl.2⟩

/-- One HTTP response to a result-poll `fetch`: status, rate-limit
headers, and the JSON body returned on a 200. -/
structure PollResp where
  status : Nat
  headers : HttpHeaders
  body : String
deriving DecidableEq, Repr

/-- Terminal outcome of `waitForResult`:
* `success attempt body` — a 200 on the given attempt, returning the body;
* `timeoutWrapped s` — the per-attempt catch re-threw on the final
  attempt, wrapping the error raised by status `s` in the
  `"⏱️ Tempo máximo de espera excedido"` message (src/lib/index.js:407);
* `timeoutExhausted` — the loop completed all attempts and threw the
  bare timeout message (src/lib/index.js:413). -/
inductive PollOutcome where
  | success (attempt : Nat) (body : String)
  | timeoutWrapped (status : Nat)
  | timeoutExhausted
deriving DecidableEq, Repr

/-- Both timeout outcomes are thrown as the `TimeoutError`
(`"⏱️ Tempo máximo de espera excedido"`) of the spec. -/
def PollOutcome.isTimeout : PollOutcome → Bool
  | .success _ _ => false
  | .timeoutWrapped _ => true
  | .timeoutExhausted => true

/-- A run of `waitForResult`: its outcome, the final `rateLimitInfo`,
the attempt index of each result request made (in order), and the total
milliseconds slept. -/
structure PollRun where
  outcome : PollOutcome
  finalInfo : RateLimitInfo
  trace : List Nat
  sleepMs : Nat
deriving DecidableEq, Repr

/-- The body of `waitForResult`'s `for` loop (src/lib/index.js:379-411),
iterating over the remaining attempt indices.  Each iteration:
`delay(pollingInterval)`, one `fetch` of the result endpoint (the status
of the k-th attempt's request is `(responses k).status`), then
`updateRateLimitFromHeaders`.  Branches, in source order:
* 200 — return the body;
* 404 — still processing, next iteration;
* 410 — `throw new Error("🗑️ Resultado excluído ou expirado")`, which
  the per-attempt catch intercepts: re-thrown as the timeout error when
  `attempt === maxPollingAttempts`, otherwise logged at debug level and
  the loop continues;
* 429 — `delay(60000)` then `continue` (the `for` update still runs, so
  the next iteration is the next attempt index);
* any other status — thrown and handled by the same catch as 410. -/
def pollLoopAux (interval maxAttempts : Nat) (responses : Nat → PollResp) :
    RateLimitInfo → List Nat → PollRun
  | info, [] => ⟨.timeoutExhausted, info, [], 0⟩
  | info, attempt :: restAttempts =>
    let resp := responses attempt
    let info2 := updateRateLimitFromHeaders info resp.headers
    if resp.status = 200 then
      ⟨.success attempt resp.body, info2, [attempt], interval⟩
    else if resp.status = 404 then
      let rest := pollLoopAux interval maxAttempts responses info2 restAttempts
      ⟨rest.outcome, rest.finalInfo, attempt :: rest.trace, interval + rest.sleepMs⟩
    else if resp.status = 429 then
      let rest := pollLoopAux interval maxAttempts responses info2 restAttempts
      ⟨rest.outcome, rest.finalInfo, attempt :: rest.trace,
        interval + 60000 + rest.sleepMs⟩
    else
      if attempt = maxAttempts then
        ⟨.timeoutWrapped resp.status, info2, [attempt], interval⟩
      else
        let rest := pollLoopAux interval maxAttempts responses info2 restAttempts
        ⟨rest.outcome, rest.finalInfo, attempt :: rest.trace, interval + rest.sleepMs⟩

/-- Models `waitForResult(uuid, apiKey)` (src/lib/index.js:373-414): the `for`
loop runs `attempt = 1 .. maxPollingAttempts`; falling off the end
throws the timeout error. -/
def waitForResult (interval maxAttempts : Nat) (responses : Nat → PollResp)
    (info : RateLimitInfo) : PollRun :=
  pollLoopAux interval maxAttempts responses info (List.range' 1 maxAttempts)

/-- Models `[...new Set(l)]`: JS `Set` insertion-order de-duplication — each
element is kept at its first occurrence. -/
def jsSetDedup (l : List String) : List String :=
  l.foldl (fun acc x => if x ∈ acc then acc else acc ++ [x]) []

/-- Models `combineTags(customTags)` (src/lib/index.js:226-239): the fixed tags
(read from `fixedtags.txt`, passed in here) are concatenated with the
custom tags whose trimmed form is truthy (non-empty), then de-duplicated
with `[...new Set(...)]`. -/
def combineTags (fixedTags customTags : List String) : List String :=
  jsSetDedup (fixedTags ++ customTags.filter (fun tag => jsTrim tag ≠ ""))

/-- A slim model of the per-URL result object built by
`submitAndWaitForAnalysis`; its only relevant use in the claims is as
the element type of the `resultados` array. -/
structure ScanRecord where
  nome : String
  sucesso : Bool
deriving DecidableEq, Repr

/-- A run of `analyzeFromFile`'s batch portion: the `resultados` array it
returns, the `sucessos`/`falhas` counters, and the argument passed to
`saveResults` (`none` when `saveResults` was never reached). -/
structure BatchRun where
  resultados : List ScanRecord
  sucessos : Nat
  falhas : Nat
  savedResults : Option (List ScanRecord)
deriving DecidableEq, Repr

/-- Models `analyzeFromFile()` from the point where `urls` is in hand
(src/lib/index.js:112-183; the `this.loadUrls()` call of line 109 that
produces `urls` is treated separately — see the method-table model
below).  `confirm` is the inquirer answer; `outcomes i` tells whether the
i-th URL's `submitAndWaitForAnalysis` result was truthy with
`sucesso = true`.  The loop body increments exactly one of the two
counters per URL and never appends to `resultados`; after the loop
`saveResults(resultados)` is called and `{resultados, sucessos, falhas}`
returned.  The two early returns (no URLs, not confirmed) skip
`saveResults`. -/
def analyzeFromFile (urls : List String) (confirm : Bool)
    (outcomes : Nat → Bool) : BatchRun :=
  if urls.length = 0 then ⟨[], 0, 0, none⟩
  else if confirm = false then ⟨[], 0, 0, none⟩
  else
    let final := (List.range urls.length).foldl
      (fun acc i =>
        if outcomes i then ⟨acc.1, acc.2.1 + 1, acc.2.2⟩
        else ⟨acc.1, acc.2.1, acc.2.2 + 1⟩)
      (⟨[], 0, 0⟩ : List ScanRecord × Nat × Nat)
    ⟨final.1, final.2.1, final.2.2, some final.1⟩

/-- The method names defined on `class Ravcheck` (src/lib/index.js:18-1060;
the class has no `extends` clause, so an instance resolves exactly these
names plus `Object.prototype`'s, which contains no `loadUrls`). -/
def ravcheckMethodNames : List String :=
  ["constructor", "init", "showMainMenu", "loadTags", "analyzeFromFile",
   "analyzeSingleUrl", "combineTags", "submitAndWaitForAnalysis",
   "submitToUrlScan", "waitForResult", "checkRateLimit",
   "parseQuotaDataFromLimits", "calculateUsage", "calculateNextReset",
   "getDefaultFreeLimits", "getDefaultLimitsForAction",
   "getDefaultQuotaData", "updateRateLimitFromHeaders", "waitForRateLimit",
   "showCurrentRateLimitStatus", "formatUsageForDisplay", "saveResults",
   "debugApiStructure", "cleanLogsAndExit", "delay"]

/-- The method names defined on `class OptionsManager`
(src/lib/config/optionsManager.js:12-314). -/
def optionsManagerMethodNames : List String :=
  ["constructor", "setupOptionsDirectory", "ensureDefaultConfigs",
   "getFilePath", "loadFile", "loadUrls", "loadTags", "getScanVisibility",
   "setScanVisibility", "getUserAgent", "setUserAgentType",
   "getCustomUserAgent", "setCustomUserAgent", "getDefaultUserAgent",
   "addUrl", "addTag", "saveUrls", "saveTags", "listConfigFiles",
   "openOptionsDirectory"]

/-- The method `analyzeFromFile` invokes on `this` in its first statement,
`const urls = this.loadUrls();` (src/lib/index.js:109). -/
def analyzeFromFileFirstCallee : String := "loadUrls"

/-- Outcome of a JS method call `this.m(...)`: `ok` when `m` resolves on
the receiver, otherwise the `TypeError: this.m is not a function` raised
before anything else in the calling method runs. -/
inductive MethodCall where
  | ok
  | typeErrorUndefinedMethod
deriving DecidableEq, Repr

/-- Resolve a method name against a class's method table. -/
def lookupMethod (methods : List String) (name : String) : MethodCall :=
  if name ∈ methods then .ok else .typeErrorUndefinedMethod

theorem pollLoopAux_trace_isPrefix (interval maxAttempts : Nat)
    (responses : Nat → PollResp) :
    ∀ (attempts : List Nat) (info : RateLimitInfo),
      (pollLoopAux interval maxAttempts responses info attempts).trace <+: attempts := by
  intro attempts
  induction attempts with
  | nil => intro info; simp [pollLoopAux]
  | cons a t ih =>
    intro info
    simp only [pollLoopAux]
    split_ifs
    · exact ⟨t, rfl⟩
    · obtain ⟨s, hs⟩ := ih (updateRateLimitFromHeaders info (responses a).headers)
      exact ⟨s, by simp [List.cons_append, hs]⟩
    · obtain ⟨s, hs⟩ := ih (updateRateLimitFromHeaders info (responses a).headers)
      exact ⟨s, by simp [List.cons_append, hs]⟩
    · exact ⟨t, rfl⟩
    · obtain ⟨s, hs⟩ := ih (updateRateLimitFromHeaders info (responses a).headers)
      exact ⟨s, by simp [List.cons_append, hs]⟩

theorem eq_range'_of_isPrefix :
    ∀ (l : List Nat) (s n : Nat), l <+: List.range' s n → l = List.range' s l.length
  | [], _, _, _ => rfl
  | x :: t, s, n, h => by
    cases n with
    | zero =>
      obtain ⟨r, hr⟩ := h
      simp [List.range'] at hr
    | succ m =>
      rw [List.range'_succ] at h
      obtain ⟨r, hr⟩ := h
      rw [List.cons_append] at hr
      injection hr with h1 h2
      have ht : t <+: List.range' (s + 1) m := ⟨r, h2⟩
      have ih := eq_range'_of_isPrefix t (s + 1) m ht
      rw [List.length_cons, List.range'_succ, h1]
      exact congrArg (List.cons s) ih

theorem pollLoopAux_sleep_lower (interval maxAttempts : Nat)
    (responses : Nat → PollResp) :
    ∀ (attempts : List Nat) (info : RateLimitInfo),
      interval * (pollLoopAux interval maxAttempts responses info attempts).trace.length ≤
        (pollLoopAux interval maxAttempts responses info attempts).sleepMs := by
  intro attempts
  induction attempts with
  | nil => intro info; simp [pollLoopAux]
  | cons a t ih =>
    intro info
    have h := ih (updateRateLimitFromHeaders info (responses a).headers)
    simp only [pollLoopAux]
    split_ifs <;>
      simp only [List.length_cons, List.length_nil, Nat.zero_add, Nat.mul_succ,
        Nat.mul_one, Nat.mul_zero] <;>
      omega

theorem pollLoopAux_no200 (interval maxAttempts : Nat) (responses : Nat → PollResp)
    (hno : ∀ k, (responses k).status ≠ 200) :
    ∀ (m s : Nat) (info : RateLimitInfo), s + m = maxAttempts + 1 →
      ((pollLoopAux interval maxAttempts responses info (List.range' s m)).outcome.isTimeout
          = true) ∧
      (pollLoopAux interval maxAttempts responses info (List.range' s m)).trace.length = m := by
  intro m
  induction m with
  | zero => intro s info _; simp [List.range', pollLoopAux, PollOutcome.isTimeout]
  | succ m ih =>
    intro s info hsm
    rw [List.range'_succ]
    have h200 : ¬(responses s).status = 200 := hno s
    have hrec := ih (s + 1) (updateRateLimitFromHeaders info (responses s).headers) (by omega)
    by_cases h404 : (responses s).status = 404
    · simp only [pollLoopAux, if_neg h200, if_pos h404]
      exact ⟨hrec.1, by simp [hrec.2]⟩
    · by_cases h429 : (responses s).status = 429
      · simp only [pollLoopAux, if_neg h200, if_neg h404, if_pos h429]
        exact ⟨hrec.1, by simp [hrec.2]⟩
      · by_cases hmax : s = maxAttempts
        · have hm0 : m = 0 := by omega
          subst hm0
          simp only [pollLoopAux, if_neg h200, if_neg h404, if_neg h429, if_pos hmax]
          exact ⟨rfl, rfl⟩
        · simp only [pollLoopAux, if_neg h200, if_neg h404, if_neg h429, if_neg hmax]
          exact ⟨hrec.1, by simp [hrec.2]⟩

theorem pollLoopAux_404_until (interval maxAttempts N : Nat) (responses : Nat → PollResp)
    (h404 : ∀ k, 1 ≤ k → k < N → (responses k).status = 404)
    (h200 : (responses N).status = 200) :
    ∀ (m s : Nat) (info : RateLimitInfo), 1 ≤ s → s ≤ N → N < s + m →
      (pollLoopAux interval maxAttempts responses info (List.range' s m)).outcome =
          .success N (responses N).body ∧
      (pollLoopAux interval maxAttempts responses info (List.range' s m)).trace =
          List.range' s (N - s + 1) ∧
      (pollLoopAux interval maxAttempts responses info (List.range' s m)).sleepMs =
          (N - s + 1) * interval := by
  intro m
  induction m with
  | zero => intro s info _ h2 h3; omega
  | succ m ih =>
    intro s info hs1 hsN hNm
    rw [List.range'_succ]
    by_cases hsEq : s = N
    · have h200s : (responses s).status = 200 := by rw [hsEq]; exact h200
      have hone : N - s + 1 = 1 := by omega
      simp only [pollLoopAux, if_pos h200s]
      refine ⟨by rw [hsEq], ?_, ?_⟩
      · rw [hone]
        rfl
      · rw [hone, Nat.one_mul]
    · have hlt : s < N := by omega
      have hst : (responses s).status = 404 := h404 s hs1 hlt
      have hn200 : ¬(responses s).status = 200 := by rw [hst]; omega
      have hrec := ih (s + 1) (updateRateLimitFromHeaders info (responses s).headers)
        (by omega) (by omega) (by omega)
      have hsub : N - (s + 1) + 1 = N - s := by omega
      rw [hsub] at hrec
      simp only [pollLoopAux, if_neg hn200, if_pos hst]
      refine ⟨hrec.1, ?_, ?_⟩
      · have hr : List.range' s (N - s + 1) = s :: List.range' (s + 1) (N - s) := by
          rw [List.range'_succ]
        rw [hr]
        exact congrArg (List.cons s) hrec.2.1
      · have hm : (N - s + 1) * interval = interval + (N - s) * interval := by
          rw [Nat.succ_mul]; omega
        rw [hm, hrec.2.2]

/-- Responses with no rate-limit headers. -/
def noHeaders : HttpHeaders := ⟨none, none⟩

/-- C1's failing input: the result endpoint answers HTTP 410 on the first
call and HTTP 200 on every later call. -/
def c1responses : Nat → PollResp := fun k =>
  if k = 1 then ⟨410, noHeaders, ""⟩ else ⟨200, noHeaders, "report-body"⟩

/-- C1: the claim (and the intent of the code's own
`throw new Error("🗑️ Resultado excluído ou expirado")`) is that an HTTP
410 on attempt 1 fails fast with `ExpiredError` and no further result
request is made.  The code does not do this: the per-attempt catch in
`waitForResult` swallows the 410 error on every non-final attempt, so
with the default `maxPollingAttempts = 30` a 410 on attempt 1 followed
by a 200 on attempt 2 makes a second request and returns the 200 body as
a success — the expiration error never reaches the caller. -/
theorem claim_c1_swallowed_410 :
    (c1responses 1).status = 410 ∧
    (waitForResult 10000 30 c1responses (initialRateLimitInfo 0)).outcome =
      .success 2 "report-body" ∧
    (waitForResult 10000 30 c1responses (initialRateLimitInfo 0)).trace = [1, 2] := by
  decide

/-- C3's concrete input: `maxPollingAttempts = 1`; the first result
request gets HTTP 429 and every later request would get HTTP 200. -/
def c3responses : Nat → PollResp := fun k =>
  if k = 1 then ⟨429, noHeaders, ""⟩ else ⟨200, noHeaders, "ready"⟩

/-- C3, counterexample: the claim says a mid-poll 429 retries the SAME
attempt index and never consumes one of the `maxAttempts` slots — under
that behaviour, with `maxAttempts = 1` and responses (429, 200, ...),
attempt 1 would be retried and the second request's 200 would succeed.
The code's `continue` instead runs the `for` update, so the 429 consumes
the only slot: the loop ends after a single request (trace `[1]`) with
the timeout error and the 200 available on the next call is never
fetched. -/
theorem claim_c3_counterexample :
    (c3responses 1).status = 429 ∧ (c3responses 2).status = 200 ∧
    (waitForResult 10000 1 c3responses (initialRateLimitInfo 0)).outcome =
      .timeoutExhausted ∧
    (waitForResult 10000 1 c3responses (initialRateLimitInfo 0)).trace = [1] := by
  decide

/-- C3, amended: when a poll attempt receives HTTP 429, the poller sleeps
60 extra seconds (60000 ms on top of the interval) and then proceeds to
the NEXT attempt index — the 429 consumes an attempt slot.  First
conjunct: the 429 step continues with the remaining attempt indices and
adds `interval + 60000` to the sleep; second conjunct: in any run the
result requests are made at consecutive attempt indices 1, 2, ...,
regardless of 429s. -/
theorem claim_c3_amended :
    (∀ (interval maxAttempts : Nat) (responses : Nat → PollResp)
        (info : RateLimitInfo) (attempt : Nat) (restAttempts : List Nat),
      (responses attempt).status = 429 →
        pollLoopAux interval maxAttempts responses info (attempt :: restAttempts) =
          { outcome := (pollLoopAux interval maxAttempts responses
              (updateRateLimitFromHeaders info (responses attempt).headers)
              restAttempts).outcome,
            finalInfo := (pollLoopAux interval maxAttempts responses
              (updateRateLimitFromHeaders info (responses attempt).headers)
              restAttempts).finalInfo,
            trace := attempt :: (pollLoopAux interval maxAttempts responses
              (updateRateLimitFromHeaders info (responses attempt).headers)
              restAttempts).trace,
            sleepMs := interval + 60000 + (pollLoopAux interval maxAttempts responses
              (updateRateLimitFromHeaders info (responses attempt).headers)
              restAttempts).sleepMs }) ∧
    (∀ (interval maxAttempts : Nat) (responses : Nat → PollResp) (info : RateLimitInfo),
      (waitForResult interval maxAttempts responses info).trace =
        List.range' 1 (waitForResult interval maxAttempts responses info).trace.length) := by
  constructor
  · intro interval maxAttempts responses info attempt restAttempts h429
    have hn200 : ¬(responses attempt).status = 200 := by rw [h429]; omega
    have hn404 : ¬(responses attempt).status = 404 := by rw [h429]; omega
    simp only [pollLoopAux, if_neg hn200, if_neg hn404, if_pos h429]
  · intro interval maxAttempts responses info
    exact eq_range'_of_isPrefix _ 1 maxAttempts
      (pollLoopAux_trace_isPrefix interval maxAttempts responses
        (List.range' 1 maxAttempts) info)

/-- Concrete input for C3's amended-claim witness: every result request
gets HTTP 429. -/
def c3wresponses : Nat → PollResp := fun _ => ⟨429, noHeaders, ""⟩

/-- Witness for the amended C3 at a concrete input. -/
theorem claim_c3_amended_witness :
    (c3wresponses 1).status = 429 ∧
    pollLoopAux 10000 5 c3wresponses (initialRateLimitInfo 0) [1] =
      { outcome := (pollLoopAux 10000 5 c3wresponses
          (updateRateLimitFromHeaders (initialRateLimitInfo 0) (c3wresponses 1).headers)
          []).outcome,
        finalInfo := (pollLoopAux 10000 5 c3wresponses
          (updateRateLimitFromHeaders (initialRateLimitInfo 0) (c3wresponses 1).headers)
          []).finalInfo,
        trace := 1 :: (pollLoopAux 10000 5 c3wresponses
          (updateRateLimitFromHeaders (initialRateLimitInfo 0) (c3wresponses 1).headers)
          []).trace,
        sleepMs := 10000 + 60000 + (pollLoopAux 10000 5 c3wresponses
          (updateRateLimitFromHeaders (initialRateLimitInfo 0) (c3wresponses 1).headers)
          []).sleepMs } :=
  ⟨rfl, claim_c3_amended.1 10000 5 c3wresponses (initialRateLimitInfo 0) 1 [] rfl⟩

/-- C5: if no result request ever returns HTTP 200, `waitForResult`
raises the TimeoutError after exhausting `maxAttempts`: the outcome is a
timeout, exactly `maxAttempts` result requests are made, and in
particular never more than `maxAttempts`. -/
theorem claim_c5_timeout_after_max (interval maxAttempts : Nat)
    (responses : Nat → PollResp) (info : RateLimitInfo)
    (h : ∀ k, (responses k).status ≠ 200) :
    (waitForResult interval maxAttempts responses info).outcome.isTimeout = true ∧
    (waitForResult interval maxAttempts responses info).trace.length = maxAttempts ∧
    (waitForResult interval maxAttempts responses info).trace.length ≤ maxAttempts := by
  have hmain := pollLoopAux_no200 interval maxAttempts responses h maxAttempts 1 info
    (by omega)
  exact ⟨hmain.1, hmain.2, le_of_eq hmain.2⟩

/-- Concrete input for C5's witness: the result endpoint always answers
HTTP 404. -/
def c5responses : Nat → PollResp := fun _ => ⟨404, noHeaders, ""⟩

/-- Witness for C5 at a concrete input: three attempts against an
always-404 endpoint time out after exactly three requests. -/
theorem claim_c5_witness :
    (∀ k, (c5responses k).status ≠ 200) ∧
    (waitForResult 10000 3 c5responses (initialRateLimitInfo 0)).outcome.isTimeout = true ∧
    (waitForResult 10000 3 c5responses (initialRateLimitInfo 0)).trace.length = 3 := by
  refine ⟨fun k => by simp [c5responses, noHeaders], ?_, ?_⟩
  · exact (claim_c5_timeout_after_max 10000 3 c5responses (initialRateLimitInfo 0)
      (fun k => by simp [c5responses, noHeaders])).1
  · exact (claim_c5_timeout_after_max 10000 3 c5responses (initialRateLimitInfo 0)
      (fun k => by simp [c5responses, noHeaders])).2.1

/-- C6: the poller sleeps one full interval before each attempt (so a
run that succeeds on attempt N has slept exactly `N * interval`, never
attempting at time zero), and against an endpoint that returns HTTP 404
on the first N-1 requests and HTTP 200 on the Nth (1 ≤ N ≤ maxAttempts)
it returns the 200 body as a success after exactly N requests. -/
theorem claim_c6_success_after_n (interval maxAttempts N : Nat)
    (responses : Nat → PollResp) (info : RateLimitInfo)
    (hN1 : 1 ≤ N) (hNmax : N ≤ maxAttempts)
    (h404 : ∀ k, 1 ≤ k → k < N → (responses k).status = 404)
    (h200 : (responses N).status = 200) :
    (waitForResult interval maxAttempts responses info).outcome =
      .success N (responses N).body ∧
    (waitForResult interval maxAttempts responses info).trace.length = N ∧
    (waitForResult interval maxAttempts responses info).sleepMs = N * interval := by
  have hmain := pollLoopAux_404_until interval maxAttempts N responses h404 h200
    maxAttempts 1 info (by omega) hN1 (by omega)
  have hcount : N - 1 + 1 = N := by omega
  rw [hcount] at hmain
  refine ⟨hmain.1, ?_, hmain.2.2⟩
  have := hmain.2.1
  rw [waitForResult, this, List.length_range']

/-- Concrete input for C6's witness: 404 on the first two requests, 200
on the third. -/
def c6responses : Nat → PollResp := fun k =>
  if k < 3 then ⟨404, noHeaders, ""⟩ else ⟨200, noHeaders, "done"⟩

/-- Witness for C6 at a concrete input: N = 3 within maxAttempts = 30. -/
theorem claim_c6_witness :
    ((1 : Nat) ≤ 3 ∧ (3 : Nat) ≤ 30 ∧
      (∀ k, 1 ≤ k → k < 3 → (c6responses k).status = 404) ∧
      (c6responses 3).status = 200) ∧
    (waitForResult 10000 30 c6responses (initialRateLimitInfo 0)).outcome =
      .success 3 (c6responses 3).body ∧
    (waitForResult 10000 30 c6responses (initialRateLimitInfo 0)).trace.length = 3 ∧
    (waitForResult 10000 30 c6responses (initialRateLimitInfo 0)).sleepMs = 3 * 10000 := by
  refine ⟨⟨by omega, by omega, fun k hk1 hk2 => by simp [c6responses, hk2], by decide⟩, ?_⟩
  exact claim_c6_success_after_n 10000 30 3 c6responses (initialRateLimitInfo 0)
    (by omega) (by omega) (fun k hk1 hk2 => by simp [c6responses, hk2]) (by decide)

theorem submitToUrlScan_ok_step (url : String) (tags : List String)
    (vis omv : String) (now : Int) (info : RateLimitInfo) (r : SubmitResp)
    (rest : List SubmitResp) (hok : 200 ≤ r.status ∧ r.status < 300) :
    submitToUrlScan url tags vis omv now info (r :: rest) =
      { outcome := .ok r.uuid,
        finalInfo := updateRateLimitFromHeaders (waitForRateLimit info now).1 r.headers,
        infoTrace := [updateRateLimitFromHeaders (waitForRateLimit info now).1 r.headers],
        payloads := [⟨url, tags, if vis ≠ "" then vis else omv⟩],
        sleepMs := (waitForRateLimit info now).2 } := by
  simp only [submitToUrlScan, if_pos hok]

theorem submitToUrlScan_retry_step (url : String) (tags : List String)
    (vis omv : String) (now : Int) (info : RateLimitInfo) (r : SubmitResp)
    (rest : List SubmitResp) (h429 : r.status = 429) :
    submitToUrlScan url tags vis omv now info (r :: rest) =
      { outcome := (submitToUrlScan url tags vis omv now
          (updateRateLimitFromHeaders (waitForRateLimit info now).1 r.headers)
          rest).outcome,
        finalInfo := (submitToUrlScan url tags vis omv now
          (updateRateLimitFromHeaders (waitForRateLimit info now).1 r.headers)
          rest).finalInfo,
        infoTrace := updateRateLimitFromHeaders (waitForRateLimit info now).1 r.headers ::
          (submitToUrlScan url tags vis omv now
            (updateRateLimitFromHeaders (waitForRateLimit info now).1 r.headers)
            rest).infoTrace,
        payloads := (⟨url, tags, if vis ≠ "" then vis else omv⟩ : Payload) ::
          (submitToUrlScan url tags vis omv now
            (updateRateLimitFromHeaders (waitForRateLimit info now).1 r.headers)
            rest).payloads,
        sleepMs := (waitForRateLimit info now).2 + 60000 +
          (submitToUrlScan url tags vis omv now
            (updateRateLimitFromHeaders (waitForRateLimit info now).1 r.headers)
            rest).sleepMs } := by
  have hok : ¬(200 ≤ r.status ∧ r.status < 300) := by rw [h429]; omega
  have hmsg : submitErrorMessage r.status r.errorText = "⏱️ Rate limit excedido" := by
    rw [h429]; rfl
  have hcontains : strContains "⏱️ Rate limit excedido" "Rate limit" = true := by decide
  simp only [submitToUrlScan, if_neg hok, hmsg, hcontains, if_true]

theorem submitToUrlScan_error_step (url : String) (tags : List String)
    (vis omv : String) (now : Int) (info : RateLimitInfo) (r : SubmitResp)
    (rest : List SubmitResp) (hok : ¬(200 ≤ r.status ∧ r.status < 300))
    (hnr : strContains (submitErrorMessage r.status r.errorText) "Rate limit" = false) :
    submitToUrlScan url tags vis omv now info (r :: rest) =
      { outcome := .err (submitErrorMessage r.status r.errorText),
        finalInfo := updateRateLimitFromHeaders (waitForRateLimit info now).1 r.headers,
        infoTrace := [updateRateLimitFromHeaders (waitForRateLimit info now).1 r.headers],
        payloads := [⟨url, tags, if vis ≠ "" then vis else omv⟩],
        sleepMs := (waitForRateLimit info now).2 } := by
  simp only [submitToUrlScan, if_neg hok, hnr]
  rw [if_neg Bool.false_ne_true]

/-- A 429 submission response as seen in the model: the rate-limit
error body with no useful headers. -/
def c2r429 : SubmitResp := ⟨429, noHeaders, "Too Many Requests", none⟩

/-- A successful submission response carrying the new job's uuid. -/
def c2rOk : SubmitResp := ⟨200, noHeaders, "", some "0199-4a55-uuid"⟩

/-- C2, counterexample: the claim says a second consecutive 429
propagates to the caller (the 60-second-cooldown retry happens exactly
once).  The code's catch block retries by recursive self-call with no
bound: against responses (429, 429, 200) the submission succeeds after a
THIRD request — the second 429 triggers another cooldown-and-retry
instead of propagating the rate-limit error. -/
theorem claim_c2_counterexample :
    c2r429.status = 429 ∧
    (submitToUrlScan "https://example.com" ["tag"] "public" "public" 0
        (initialRateLimitInfo 0) [c2r429, c2r429, c2rOk]).outcome =
      .ok (some "0199-4a55-uuid") ∧
    (submitToUrlScan "https://example.com" ["tag"] "public" "public" 0
        (initialRateLimitInfo 0) [c2r429, c2r429, c2rOk]).payloads.length = 3 ∧
    (submitToUrlScan "https://example.com" ["tag"] "public" "public" 0
        (initialRateLimitInfo 0) [c2r429, c2r429, c2rOk]).outcome ≠
      .err (submitErrorMessage 429 "Too Many Requests") := by
  decide

/-- C2, amended: on HTTP 429 the submission client waits the fixed
60-second cooldown and retries via recursive self-call WITHOUT a retry
bound.  Conjuncts: (1) a 429 always continues into a retry (one more
request, at least 60000 ms of cooldown slept) — so consecutive 429s each
retry again rather than propagating; (2) a single 429 followed by a 2xx
yields exactly one internal retry (two requests total) and a successful
submission, with the cooldown observed; (3) a non-ok response whose
thrown message does not contain "Rate limit" propagates as an error with
no retry (exactly one request). -/
theorem claim_c2_amended :
    (∀ (url : String) (tags : List String) (vis omv : String) (now : Int)
        (info : RateLimitInfo) (r : SubmitResp) (rest : List SubmitResp),
      r.status = 429 →
        (submitToUrlScan url tags vis omv now info (r :: rest)).outcome =
          (submitToUrlScan url tags vis omv now
            (updateRateLimitFromHeaders (waitForRateLimit info now).1 r.headers)
            rest).outcome ∧
        (submitToUrlScan url tags vis omv now info (r :: rest)).payloads.length =
          (submitToUrlScan url tags vis omv now
            (updateRateLimitFromHeaders (waitForRateLimit info now).1 r.headers)
            rest).payloads.length + 1 ∧
        60000 ≤ (submitToUrlScan url tags vis omv now info (r :: rest)).sleepMs) ∧
    (∀ (url : String) (tags : List String) (vis omv : String) (now : Int)
        (info : RateLimitInfo) (r1 r2 : SubmitResp) (rest : List SubmitResp),
      r1.status = 429 → 200 ≤ r2.status → r2.status < 300 →
        (submitToUrlScan url tags vis omv now info (r1 :: r2 :: rest)).outcome =
          .ok r2.uuid ∧
        (submitToUrlScan url tags vis omv now info (r1 :: r2 :: rest)).payloads.length
          = 2 ∧
        60000 ≤ (submitToUrlScan url tags vis omv now info (r1 :: r2 :: rest)).sleepMs) ∧
    (∀ (url : String) (tags : List String) (vis omv : String) (now : Int)
        (info : RateLimitInfo) (r : SubmitResp) (rest : List SubmitResp),
      ¬(200 ≤ r.status ∧ r.status < 300) →
      strContains (submitErrorMessage r.status r.errorText) "Rate limit" = false →
        (submitToUrlScan url tags vis omv now info (r :: rest)).outcome =
          .err (submitErrorMessage r.status r.errorText) ∧
        (submitToUrlScan url tags vis omv now info (r :: rest)).payloads.length = 1) := by
  refine ⟨?_, ?_, ?_⟩
  · intro url tags vis omv now info r rest h429
    rw [submitToUrlScan_retry_step url tags vis omv now info r rest h429]
    exact ⟨rfl, by simp, le_trans (Nat.le_add_left 60000 _) (Nat.le_add_right _ _)⟩
  · intro url tags vis omv now info r1 r2 rest h429 hlo hhi
    rw [submitToUrlScan_retry_step url tags vis omv now info r1 (r2 :: rest) h429,
      submitToUrlScan_ok_step url tags vis omv now _ r2 rest ⟨hlo, hhi⟩]
    exact ⟨rfl, by simp, le_trans (Nat.le_add_left 60000 _) (Nat.le_add_right _ _)⟩
  · intro url tags vis omv now info r rest hok hnr
    rw [submitToUrlScan_error_step url tags vis omv now info r rest hok hnr]
    exact ⟨rfl, rfl⟩

/-- Witness for the amended C2 at a concrete input: one 429 then a 200
yields one retry, two requests, a success, and at least the 60-second
cooldown slept. -/
theorem claim_c2_amended_witness :
    (c2r429.status = 429 ∧ 200 ≤ c2rOk.status ∧ c2rOk.status < 300) ∧
    (submitToUrlScan "https://example.com" ["tag"] "public" "public" 0
        (initialRateLimitInfo 0) [c2r429, c2rOk]).outcome =
      .ok c2rOk.uuid ∧
    (submitToUrlScan "https://example.com" ["tag"] "public" "public" 0
        (initialRateLimitInfo 0) [c2r429, c2rOk]).payloads.length = 2 ∧
    60000 ≤ (submitToUrlScan "https://example.com" ["tag"] "public" "public" 0
        (initialRateLimitInfo 0) [c2r429, c2rOk]).sleepMs :=
  ⟨⟨rfl, by decide, by decide⟩,
    claim_c2_amended.2.1 "https://example.com" ["tag"] "public" "public" 0
      (initialRateLimitInfo 0) c2r429 c2rOk [] rfl (by decide) (by decide)⟩

/-- C7: `waitForRateLimit` (the spec's `beforeRequest`) does not suspend
when `remaining > 0` (and leaves the state untouched); when
`remaining ≤ 0` and `resetAt` is in the future it suspends for at least
`resetAt - now` milliseconds and then resets the state to the
conservative placeholder `remaining = 1`, `reset = now + 60000`. -/
theorem claim_c7_beforeRequest :
    (∀ (info : RateLimitInfo) (now x : Int), info.remaining = some x → 0 < x →
      waitForRateLimit info now = (info, 0)) ∧
    (∀ (info : RateLimitInfo) (now x r : Int), info.remaining = some x → x ≤ 0 →
      info.reset = some r → now < r →
      (r - now).toNat ≤ (waitForRateLimit info now).2 ∧
      (waitForRateLimit info now).1 =
        { remaining := some 1, reset := some (now + 60000) }) := by
  constructor
  · intro info now x hrem hpos
    obtain ⟨rem, res⟩ := info
    obtain rfl : rem = some x := hrem
    cases res with
    | none => rfl
    | some r =>
      have hcond : ¬(jsLe (some x) 0 = true ∧ now < r) := by
        rintro ⟨h1, _⟩
        simp only [jsLe, decide_eq_true_eq] at h1
        omega
      simp only [waitForRateLimit]
      rw [if_neg hcond]
  · intro info now x r hrem hx hres hlt
    obtain ⟨rem, res⟩ := info
    obtain rfl : rem = some x := hrem
    obtain rfl : res = some r := hres
    have hcond : jsLe (some x) 0 = true ∧ now < r := by
      refine ⟨?_, hlt⟩
      simp only [jsLe, decide_eq_true_eq]
      omega
    simp only [waitForRateLimit]
    rw [if_pos hcond]
    constructor
    · exact Int.toNat_le_toNat (by omega)
    · rfl

/-- Witness for C7 at a concrete input: `remaining = 0`, `reset = 5000`,
`now = 1000` — the tracker sleeps at least 4000 ms and resets the
placeholder state. -/
theorem claim_c7_witness :
    ((⟨some 0, some 5000⟩ : RateLimitInfo).remaining = some 0 ∧ (0 : Int) ≤ 0 ∧
      (⟨some 0, some 5000⟩ : RateLimitInfo).reset = some 5000 ∧ (1000 : Int) < 5000) ∧
    ((5000 - 1000 : Int)).toNat ≤ (waitForRateLimit ⟨some 0, some 5000⟩ 1000).2 ∧
    (waitForRateLimit ⟨some 0, some 5000⟩ 1000).1 =
      { remaining := some 1, reset := some (1000 + 60000) } :=
  ⟨⟨rfl, le_refl 0, rfl, by omega⟩,
    (claim_c7_beforeRequest.2 ⟨some 0, some 5000⟩ 1000 0 5000 rfl (le_refl 0) rfl
      (by omega)).1,
    (claim_c7_beforeRequest.2 ⟨some 0, some 5000⟩ 1000 0 5000 rfl (le_refl 0) rfl
      (by omega)).2⟩

/-- C8: the rate tracker's `afterResponse` step.  Absent headers leave
the prior state unchanged (field by field); when both headers are
present (non-empty) both fields are overwritten with the parsed values
(the reset header scaled from seconds to milliseconds); and
`submitToUrlScan` applies this header update on every request, success
or failure alike — the state recorded right after any response is the
header update of the pre-request state. -/
theorem claim_c8_afterResponse :
    (∀ info : RateLimitInfo, updateRateLimitFromHeaders info ⟨none, none⟩ = info) ∧
    (∀ (info : RateLimitInfo) (s : String),
      (updateRateLimitFromHeaders info ⟨some s, none⟩).reset = info.reset) ∧
    (∀ (info : RateLimitInfo) (t : String),
      (updateRateLimitFromHeaders info ⟨none, some t⟩).remaining = info.remaining) ∧
    (∀ (info : RateLimitInfo) (s t : String), s ≠ "" → t ≠ "" →
      updateRateLimitFromHeaders info ⟨some s, some t⟩ =
        ⟨jsParseInt s, (jsParseInt t).map (· * 1000)⟩) ∧
    (∀ (url : String) (tags : List String) (vis omv : String) (now : Int)
        (info : RateLimitInfo) (r : SubmitResp) (rest : List SubmitResp),
      (submitToUrlScan url tags vis omv now info (r :: rest)).infoTrace.head? =
        some (updateRateLimitFromHeaders (waitForRateLimit info now).1 r.headers)) := by
  refine ⟨?_, ?_, ?_, ?_, ?_⟩
  · intro info
    simp [updateRateLimitFromHeaders, jsTruthy]
  · intro info s
    simp only [updateRateLimitFromHeaders, jsTruthy]
    split_ifs <;> simp_all
  · intro info t
    simp only [updateRateLimitFromHeaders, jsTruthy]
    split_ifs <;> simp_all
  · intro info s t hs ht
    simp [updateRateLimitFromHeaders, jsTruthy, hs, ht]
  · intro url tags vis omv now info r rest
    simp only [submitToUrlScan]
    split_ifs <;> rfl

/-- Witness for C8 at concrete header strings "5" and "99": both fields
are overwritten with the parsed values. -/
theorem claim_c8_witness :
    (("5" : String) ≠ "" ∧ ("99" : String) ≠ "") ∧
    updateRateLimitFromHeaders ⟨some 1, some 60000⟩ ⟨some "5", some "99"⟩ =
      ⟨jsParseInt "5", (jsParseInt "99").map (· * 1000)⟩ :=
  ⟨⟨by decide, by decide⟩,
    claim_c8_afterResponse.2.2.2.1 ⟨some 1, some 60000⟩ "5" "99" (by decide) (by decide)⟩

theorem dedupFold_append :
    ∀ (l acc : List String),
      ∃ k, l.foldl (fun acc x => if x ∈ acc then acc else acc ++ [x]) acc = acc ++ k ∧
        k.Sublist l := by
  intro l
  induction l with
  | nil => intro acc; exact ⟨[], by simp, List.Sublist.refl []⟩
  | cons x t ih =>
    intro acc
    simp only [List.foldl_cons]
    by_cases hx : x ∈ acc
    · rw [if_pos hx]
      obtain ⟨k, hk, hsub⟩ := ih acc
      exact ⟨k, hk, hsub.cons x⟩
    · rw [if_neg hx]
      obtain ⟨k, hk, hsub⟩ := ih (acc ++ [x])
      refine ⟨x :: k, ?_, hsub.cons₂ x⟩
      rw [hk, List.append_assoc]
      rfl

theorem dedupFold_nodup :
    ∀ (l acc : List String), acc.Nodup →
      (l.foldl (fun acc x => if x ∈ acc then acc else acc ++ [x]) acc).Nodup := by
  intro l
  induction l with
  | nil => intro acc h; simpa using h
  | cons x t ih =>
    intro acc h
    simp only [List.foldl_cons]
    by_cases hx : x ∈ acc
    · rw [if_pos hx]
      exact ih acc h
    · rw [if_neg hx]
      refine ih (acc ++ [x]) ?_
      simp [List.nodup_append, h, hx]

theorem dedupFold_mem :
    ∀ (l acc : List String) (y : String),
      y ∈ l.foldl (fun acc x => if x ∈ acc then acc else acc ++ [x]) acc ↔
        y ∈ acc ∨ y ∈ l := by
  intro l
  induction l with
  | nil => intro acc y; simp
  | cons x t ih =>
    intro acc y
    simp only [List.foldl_cons]
    by_cases hx : x ∈ acc
    · rw [if_pos hx, ih acc y]
      simp only [List.mem_cons]
      constructor
      · rintro (h | h)
        · exact Or.inl h
        · exact Or.inr (Or.inr h)
      · rintro (h | h | h)
        · exact Or.inl h
        · exact Or.inl (h ▸ hx)
        · exact Or.inr h
    · rw [if_neg hx, ih (acc ++ [x]) y]
      simp only [List.mem_append, List.mem_singleton, List.mem_cons]
      tauto

/-- A successful submission response used in C9's payload round trip. -/
def c9resp : SubmitResp := ⟨200, noHeaders, "", some "uuid-c9"⟩

/-- C9: the tag combination step de-duplicates.  Concretely, the
duplicate-carrying tag list ["a", "b", "a"] combines to ["a", "b"] (size
2, first occurrences kept in order) and that de-duplicated list is what
lands in the outgoing submission payload; in general `combineTags`
always yields a duplicate-free list that is a subsequence of the raw
concatenation (so order of first occurrences is preserved) containing
exactly the fixed tags and the non-blank custom tags. -/
theorem claim_c9_tag_dedup :
    combineTags [] ["a", "b", "a"] = ["a", "b"] ∧
    (combineTags [] ["a", "b", "a"]).length = 2 ∧
    (submitToUrlScan "https://example.com" (combineTags [] ["a", "b", "a"])
        "public" "public" 0 (initialRateLimitInfo 0) [c9resp]).payloads =
      [⟨"https://example.com", ["a", "b"], "public"⟩] ∧
    (∀ ft ct : List String, (combineTags ft ct).Nodup) ∧
    (∀ ft ct : List String,
      (combineTags ft ct).Sublist (ft ++ ct.filter (fun tag => jsTrim tag ≠ ""))) ∧
    (∀ (ft ct : List String) (y : String),
      y ∈ combineTags ft ct ↔ y ∈ ft ∨ (y ∈ ct ∧ jsTrim y ≠ "")) := by
  refine ⟨by decide, by decide, by decide, ?_, ?_, ?_⟩
  · intro ft ct
    exact dedupFold_nodup _ [] List.nodup_nil
  · intro ft ct
    obtain ⟨k, hk, hsub⟩ :=
      dedupFold_append (ft ++ ct.filter (fun tag => jsTrim tag ≠ "")) []
    have : combineTags ft ct = k := by
      rw [combineTags, jsSetDedup, hk]
      rfl
    rw [this]
    exact hsub
  · intro ft ct y
    rw [combineTags, jsSetDedup, dedupFold_mem]
    simp [List.mem_filter]

theorem batchFoldInvariant (outcomes : Nat → Bool) :
    ∀ (idxs : List Nat) (res : List ScanRecord) (suc fal : Nat),
      (idxs.foldl
        (fun acc i =>
          if outcomes i then ⟨acc.1, acc.2.1 + 1, acc.2.2⟩
          else ⟨acc.1, acc.2.1, acc.2.2 + 1⟩)
        (⟨res, suc, fal⟩ : List ScanRecord × Nat × Nat)).1 = res ∧
      (idxs.foldl
        (fun acc i =>
          if outcomes i then ⟨acc.1, acc.2.1 + 1, acc.2.2⟩
          else ⟨acc.1, acc.2.1, acc.2.2 + 1⟩)
        (⟨res, suc, fal⟩ : List ScanRecord × Nat × Nat)).2.1 +
      (idxs.foldl
        (fun acc i =>
          if outcomes i then ⟨acc.1, acc.2.1 + 1, acc.2.2⟩
          else ⟨acc.1, acc.2.1, acc.2.2 + 1⟩)
        (⟨res, suc, fal⟩ : List ScanRecord × Nat × Nat)).2.2 =
        suc + fal + idxs.length := by
  intro idxs
  induction idxs with
  | nil => intro res suc fal; simp
  | cons i t ih =>
    intro res suc fal
    simp only [List.foldl_cons]
    by_cases hi : outcomes i = true
    · rw [if_pos hi]
      have h2 := ih res (suc + 1) fal
      exact ⟨h2.1, by rw [h2.2]; simp; omega⟩
    · rw [if_neg hi]
      have h2 := ih res suc (fal + 1)
      exact ⟨h2.1, by rw [h2.2]; simp; omega⟩

/-- C10: for every completed batch run (non-empty URL list, confirmed by
the user), the `sucessos` and `falhas` counters sum to the number of
URLs, while the returned `resultados` list — also the argument handed to
`saveResults` — is empty: the loop never appends a per-URL result to
it. -/
theorem claim_c10_batch_counters (urls : List String) (outcomes : Nat → Bool)
    (h : urls ≠ []) :
    (analyzeFromFile urls true outcomes).sucessos +
      (analyzeFromFile urls true outcomes).falhas = urls.length ∧
    (analyzeFromFile urls true outcomes).resultados = [] ∧
    (analyzeFromFile urls true outcomes).savedResults = some [] := by
  have hlen : ¬(urls.length = 0) := by
    simpa [List.length_eq_zero] using h
  have hfold := batchFoldInvariant outcomes (List.range urls.length) [] 0 0
  simp only [analyzeFromFile, if_neg hlen]
  rw [if_neg (by decide : ¬((true : Bool) = false))]
  refine ⟨?_, ?_, ?_⟩
  · have := hfold.2
    simp only [List.length_range] at this
    simpa using this
  · simpa using hfold.1
  · simpa using congrArg some hfold.1

/-- Witness for C10 at a concrete input: one URL whose analysis fails. -/
theorem claim_c10_witness :
    (["https://a.example"] ≠ ([] : List String)) ∧
    (analyzeFromFile ["https://a.example"] true (fun _ => false)).sucessos +
      (analyzeFromFile ["https://a.example"] true (fun _ => false)).falhas = 1 ∧
    (analyzeFromFile ["https://a.example"] true (fun _ => false)).resultados = [] ∧
    (analyzeFromFile ["https://a.example"] true (fun _ => false)).savedResults =
      some [] :=
  ⟨List.cons_ne_nil _ _,
    claim_c10_batch_counters ["https://a.example"] (fun _ => false)
      (List.cons_ne_nil _ _)⟩

/-- C4: `analyzeFromFile` begins with `const urls = this.loadUrls();`,
but `loadUrls` is not among the methods `class Ravcheck` defines (it is
defined only on `OptionsManager`), so the very first step of a batch run
raises a TypeError — before any URL is submitted. -/
theorem claim_c4_loadUrls_undefined :
    lookupMethod ravcheckMethodNames analyzeFromFileFirstCallee =
      .typeErrorUndefinedMethod ∧
    analyzeFromFileFirstCallee ∉ ravcheckMethodNames ∧
    analyzeFromFileFirstCallee ∈ optionsManagerMethodNames ∧
    "loadTags" ∈ ravcheckMethodNames ∧
    "submitToUrlScan" ∈ ravcheckMethodNames := by
  decide

end Ravcheck
